import Mathlib

/-!
Verification development for the BrainBites quiz service
(`src/services/QuizService.js`).

The service keeps three pieces of mutable state: the loaded question list
(`this.questions`), the set of already-served question ids
(`this.usedQuestionIds`), and a per-category count mapping
(`this.categoryCounts`).  We embed that state as `QuizState` and each method
as a pure state-passing function.

Modelling conventions, each justified against the source:

* JS `Set` of strings is embedded as a `List String` used up to membership;
  `Set.add` is `markUsed` (no duplicate insertion, as in JS), `Set.delete`
  inside a `forEach` loop over matching ids is a `List.filter`.
* The JS object `categoryCounts` is an association list `List (String × Nat)`;
  reading a missing key yields `undefined` in JS, and every use of such a read
  in the source is the comparison `x < 0.2 * undefined`, which is false, so
  `countLookup` returns `0` for a missing key and the comparison is mapped to
  a natural-number comparison that is likewise false at `0`.
* The float test `availableQuestions.length < 0.2 * count` compares an integer
  against `0.2 * count` computed in IEEE doubles.  For every count below
  `2 ^ 50` the rounded product differs from the rational `count / 5` by far
  less than the distance to the nearest integer, so the test is equivalent to
  the exact rational comparison, embedded as `5 * length < count`.
* `Math.floor(Math.random() * n)` produces an arbitrary index below `n`; we
  pass an arbitrary `r : Nat` and use `r % n`, which ranges over exactly the
  same indices as `r` varies.  Claims quantify over `r`.
* The `async` recursion in `getRandomQuestion` is embedded with explicit fuel;
  `none` means the computation has not finished within the given number of
  recursive steps, so `(forall fuel, run fuel = none)` states non-termination.
* The `try`/`catch` wrapper: the only statements inside the `try` that can
  throw are the explicit `throw` for an empty category pool and the
  `category[0]` access when `category` is the empty string (then `category[0]`
  is `undefined` and `.toUpperCase()` raises a TypeError).  Both happen before
  any mutation, and the `catch` returns `getFallbackQuestion(category)` with
  the state unchanged; the embedding returns the fallback directly in those
  two branches.
* Persistence writes (`saveData`) only mirror the in-memory set to storage and
  are invisible to every claim below, so they are not part of the state.
-/

namespace BrainBites

/-- A raw question record: one parsed CSV row, and also the shape stored in
`this.questions`.  A missing or empty JS field is embedded as `""` (both are
falsy in the source's `item.id && item.question` filter and both fail the
strict equality tests used elsewhere only when the compared string differs). -/
structure Question where
  id : String
  category : String
  question : String
  optionA : String
  optionB : String
  optionC : String
  optionD : String
  correctAnswer : String
  explanation : String
deriving DecidableEq

/-- The nested `options` object of the output shape. -/
structure AnswerOptions where
  A : String
  B : String
  C : String
  D : String
deriving DecidableEq

/-- The output shape `{id, question, options, correctAnswer, explanation}`
returned by `getRandomQuestion` and by `getFallbackQuestion`. -/
structure FormattedQuestion where
  id : String
  question : String
  options : AnswerOptions
  correctAnswer : String
  explanation : String
deriving DecidableEq

/-- The mutable fields of the `QuizService` singleton. -/
structure QuizState where
  questions : List Question
  usedQuestionIds : List String
  categoryCounts : List (String × Nat)
deriving DecidableEq

/-- The state set up by the constructor before any loading happens:
`questions = []`, `usedQuestionIds = new Set()`, `categoryCounts = {}`. -/
def initialState : QuizState :=
  { questions := [], usedQuestionIds := [], categoryCounts := [] }

/-- Outcome of the `AsyncStorage.getItem` + `JSON.parse` step in
`loadSavedData`: the read threw, the record was absent, or it parsed to a
record carrying a list of used ids (`parsedData.usedQuestionIds || []`, so a
record with the field missing is `found []`). -/
inductive StoreReadResult where
  | readError : StoreReadResult
  | absent : StoreReadResult
  | found : List String → StoreReadResult

/-- `loadSavedData`: on a read error the `catch` only logs, on an absent
record the `if (data)` guard skips the assignment; in both cases the state is
unchanged.  A present record replaces the used-id set with the persisted
list. -/
def loadSavedData (s : QuizState) : StoreReadResult → QuizState
  | StoreReadResult.readError => s
  | StoreReadResult.absent => s
  | StoreReadResult.found ids => { s with usedQuestionIds := ids }

/-- One `this.categoryCounts[q.category]++` step (with the implicit
initialisation to `0` when the key is new). -/
def bumpCount : List (String × Nat) → String → List (String × Nat)
  | [], c => [(c, 1)]
  | (k, v) :: rest, c =>
      if k = c then (k, v + 1) :: rest else (k, v) :: bumpCount rest c

/-- The count-building loop of `loadQuestions`: for each question with a
truthy `category` field, bump that category's counter. -/
def computeCounts (qs : List Question) : List (String × Nat) :=
  qs.foldl (fun m q => if q.category = "" then m else bumpCount m q.category) []

/-- Reading `this.categoryCounts[c]`; a missing key is `0` (see the header
comment on the `undefined` / `NaN` behaviour). -/
def countLookup : List (String × Nat) → String → Nat
  | [], _ => 0
  | (k, v) :: rest, c => if k = c then v else countLookup rest c

/-- The `complete` callback of `Papa.parse` in `loadQuestions`: keep the rows
with a truthy `id` and `question`, store them as the bank, and recompute the
category counts.  Note that this callback runs for every successfully parsed
source, including one with zero valid rows. -/
def processQuestions (rows : List Question) (s : QuizState) : QuizState :=
  let qs := rows.filter (fun q => q.id != "" && q.question != "")
  { s with questions := qs, categoryCounts := computeCounts qs }

/-- First entry of the hard-coded fallback bank.  Its id is `A1`, which does
not start with the letter F of its own category `funfacts`. -/
def fallbackQ1 : Question :=
  { id := "A1", category := "funfacts",
    question := "Which planet is known as the Red Planet?",
    optionA := "Venus", optionB := "Mars", optionC := "Jupiter",
    optionD := "Saturn", correctAnswer := "B",
    explanation := "Mars is called the Red Planet because of the reddish iron oxide on its surface." }

/-- Second entry of the hard-coded fallback bank. -/
def fallbackQ2 : Question :=
  { id := "B1", category := "psychology",
    question := "What is the fear of spiders called?",
    optionA := "Arachnophobia", optionB := "Acrophobia",
    optionC := "Agoraphobia", optionD := "Aerophobia", correctAnswer := "A",
    explanation := "Arachnophobia is the intense fear of spiders and other arachnids." }

/-- The hard-coded bank installed by `setupFallbackQuestions`. -/
def fallbackQuestionBank : List Question :=
  [fallbackQ1, fallbackQ2]

/-- `setupFallbackQuestions`: install the two-question bank and the literal
count mapping written in the source. -/
def setupFallbackQuestions (s : QuizState) : QuizState :=
  { s with questions := fallbackQuestionBank,
           categoryCounts := [("funfacts", 1), ("psychology", 1)] }

/-- `categoryQuestions`: the bank filtered by strict equality on `category`. -/
def poolOf (s : QuizState) (category : String) : List Question :=
  s.questions.filter (fun q => q.category == category)

/-- `availableQuestions`: the pool minus questions whose id is in the used
set. -/
def availOf (s : QuizState) (category : String) : List Question :=
  (poolOf s category).filter (fun q => !(s.usedQuestionIds.contains q.id))

/-- `id.startsWith(p)` for a one-character pattern `p`. -/
def startsWithChar (str : String) (p : Char) : Bool :=
  match str.toList with
  | [] => false
  | a :: _ => a == p

/-- `category[0].toUpperCase()`: the uppercased first character.  Only ever
used for a non-empty `category` (the empty case throws and is handled by the
`catch`, see `getRandomQuestionFuel`); the `headD` default is unreachable
there. -/
def catInitial (category : String) : Char :=
  (category.toList.headD 'a').toUpper

/-- The reset loop: delete every used id whose first character is the given
letter. -/
def resetCategoryIds (s : QuizState) (p : Char) : QuizState :=
  { s with usedQuestionIds :=
      s.usedQuestionIds.filter (fun id => !(startsWithChar id p)) }

/-- `this.usedQuestionIds.add(id)`: a set insertion, so a no-op when the id is
already present. -/
def markUsed (s : QuizState) (id : String) : QuizState :=
  { s with usedQuestionIds :=
      if s.usedQuestionIds.contains id then s.usedQuestionIds
      else id :: s.usedQuestionIds }

/-- Placeholder for `availableQuestions[randomIndex]`; never reached, because
the index is always below the length (proved where used). -/
def defaultQuestion : Question :=
  { id := "", category := "", question := "", optionA := "", optionB := "",
    optionC := "", optionD := "", correctAnswer := "", explanation := "" }

/-- `const question = availableQuestions[randomIndex]` with
`randomIndex = Math.floor(Math.random() * length)` embedded as `r % length`. -/
def chosenQuestion (s : QuizState) (category : String) (r : Nat) : Question :=
  (availOf s category).getD (r % (availOf s category).length) defaultQuestion

/-- The reshaping of a bank question into the output shape. -/
def formatQuestion (q : Question) : FormattedQuestion :=
  { id := q.id, question := q.question,
    options := { A := q.optionA, B := q.optionB, C := q.optionC, D := q.optionD },
    correctAnswer := q.correctAnswer, explanation := q.explanation }

/-- The `funfacts` entry of the `fallbacks` mapping in `getFallbackQuestion`. -/
def fallbackFunfacts : FormattedQuestion :=
  { id := "fallback-funfacts",
    question := "Which planet is closest to the Sun?",
    options := { A := "Earth", B := "Venus", C := "Mercury", D := "Mars" },
    correctAnswer := "C",
    explanation := "Mercury is the closest planet to the Sun in our solar system." }

/-- The `psychology` entry of the `fallbacks` mapping. -/
def fallbackPsychology : FormattedQuestion :=
  { id := "fallback-psychology",
    question := "What is the study of dreams called?",
    options := { A := "Oneirology", B := "Neurology", C := "Psychology", D := "Psychiatry" },
    correctAnswer := "A",
    explanation := "Oneirology is the scientific study of dreams." }

/-- The `default` entry of the `fallbacks` mapping. -/
def fallbackDefault : FormattedQuestion :=
  { id := "fallback-default",
    question := "What is 2 + 2?",
    options := { A := "3", B := "4", C := "5", D := "6" },
    correctAnswer := "B",
    explanation := "2 + 2 = 4. This is a basic addition fact." }

/-- `getFallbackQuestion`: `fallbacks[category] || fallbacks.default`. -/
def getFallbackQuestion (category : String) : FormattedQuestion :=
  if category = "funfacts" then fallbackFunfacts
  else if category = "psychology" then fallbackPsychology
  else fallbackDefault

/-- `getRandomQuestion(category)` with explicit recursion fuel.  Branches, in
source order: empty pool throws and the `catch` returns the fallback with the
state unchanged; the exhaustion test triggers the prefix reset and the
recursive retry (an empty `category` throws at `category[0].toUpperCase()`
and lands in the `catch`); an empty available set returns the fallback; and
otherwise a random available question is chosen, marked used, and returned
reshaped. -/
def getRandomQuestionFuel : Nat → String → Nat → QuizState →
    Option (FormattedQuestion × QuizState)
  | 0, _, _, _ => none
  | fuel + 1, category, r, s =>
    if (poolOf s category).length = 0 then
      some (getFallbackQuestion category, s)
    else if 5 * (availOf s category).length < countLookup s.categoryCounts category then
      if category = "" then
        some (getFallbackQuestion category, s)
      else
        getRandomQuestionFuel fuel category r (resetCategoryIds s (catInitial category))
    else if (availOf s category).length = 0 then
      some (getFallbackQuestion category, s)
    else
      some (formatQuestion (chosenQuestion s category r),
            markUsed s (chosenQuestion s category r).id)

/-- A call of `getRandomQuestion()` with no argument: the parameter list
declares the default value `category = 'funfacts'`. -/
def getRandomQuestionDefault (fuel r : Nat) (s : QuizState) :
    Option (FormattedQuestion × QuizState) :=
  getRandomQuestionFuel fuel "funfacts" r s

/-- `[...new Set(list)]`: first occurrences in order, given the already-seen
elements. -/
def uniqueList (seen : List String) : List String → List String
  | [] => []
  | x :: xs => if x ∈ seen then uniqueList seen xs else x :: uniqueList (x :: seen) xs

/-- The hard-coded seven-name category list returned for an empty bank. -/
def canonicalCategories : List String :=
  ["funfacts", "psychology", "math", "science", "history", "english", "general"]

/-- `getCategories`: distinct categories of the bank, else the canonical
seven.  Nothing in the `try` block can throw, so the `catch` is dead code. -/
def getCategories (s : QuizState) : List String :=
  let cats := uniqueList [] (s.questions.map (fun q => q.category))
  if cats.length > 0 then cats else canonicalCategories

/-- `resetUsedQuestions`: clear the whole used-id set. -/
def resetUsedQuestions (s : QuizState) : QuizState :=
  { s with usedQuestionIds := [] }

/-! Concrete inputs used by the witnesses and counterexamples below. -/

/-- A two-question `funfacts` bank whose ids follow the id-letter convention. -/
def exBank3 : List Question :=
  [ { defaultQuestion with id := "F1", category := "funfacts", question := "q1" },
    { defaultQuestion with id := "F2", category := "funfacts", question := "q2" } ]

/-- The bank `exBank3` with nothing used yet; the counts field is exactly
`computeCounts exBank3`. -/
def ex1State : QuizState :=
  { questions := exBank3, usedQuestionIds := [], categoryCounts := [("funfacts", 2)] }

/-- The bank `exBank3` with both questions used; the counts field is exactly
`computeCounts exBank3`. -/
def ex3State : QuizState :=
  { questions := exBank3, usedQuestionIds := ["F1", "F2"],
    categoryCounts := [("funfacts", 2)] }

/-- The state the service reaches on its own after a fallback load followed by
one served `funfacts` question: the fallback bank with id `A1` marked used. -/
def c2State : QuizState :=
  { questions := fallbackQuestionBank, usedQuestionIds := ["A1"],
    categoryCounts := [("funfacts", 1), ("psychology", 1)] }

/-- A parsed row that is valid (truthy id and question) but has an empty
`category` field, as produced by a CSV line with an empty category cell. -/
def emptyCatRow : Question :=
  { defaultQuestion with id := "X1", question := "some text" }

/-- A parsed row with a missing id: it is dropped by the validity filter. -/
def invalidRow : Question :=
  { defaultQuestion with category := "funfacts", question := "orphan text" }

end BrainBites

namespace BrainBites

/-! General helper lemmas about the embedded operations. -/

/-- A list splits into the part satisfying a Bool predicate and the part
satisfying its negation. -/
theorem length_filter_split (l : List α) (p : α → Bool) :
    (l.filter p).length + (l.filter (fun a => !(p a))).length = l.length := by
  induction l with
  | nil => rfl
  | cons a t ih =>
    cases h : p a <;> simp [List.filter_cons, h] <;> omega

/-- `bumpCount` increments exactly the looked-up counter of its key. -/
theorem countLookup_bumpCount (m : List (String × Nat)) (c c' : String) :
    countLookup (bumpCount m c) c'
      = countLookup m c' + (if c = c' then 1 else 0) := by
  induction m with
  | nil => simp [bumpCount, countLookup]
  | cons kv rest ih =>
    obtain ⟨k, v⟩ := kv
    by_cases hk : k = c
    · subst hk
      by_cases hk' : k = c' <;> simp [bumpCount, countLookup, hk'] <;> omega
    · by_cases hk' : k = c'
      · subst hk'
        have hck : ¬ c = k := fun h => hk h.symm
        simp [bumpCount, countLookup, hk, hck]
      · simp [bumpCount, countLookup, hk, hk', ih]

theorem countLookup_computeCounts_aux (qs : List Question)
    (m : List (String × Nat)) (c : String) :
    countLookup (qs.foldl (fun m q => if q.category = "" then m else bumpCount m q.category) m) c
      = countLookup m c
        + (if c = "" then 0 else (qs.filter (fun q => q.category == c)).length) := by
  induction qs generalizing m with
  | nil => simp
  | cons q qs ih =>
    rw [List.foldl_cons, ih]
    by_cases hq : q.category = ""
    · rw [if_pos hq]
      by_cases hc : c = ""
      · simp [hc]
      · have hbc : ¬ ("" = c) := fun h => hc h.symm
        simp [hq, hc, List.filter_cons, hbc]
    · rw [if_neg hq, countLookup_bumpCount]
      by_cases hc : c = ""
      · simp [hc, hq]
      · by_cases hqc : q.category = c
        · simp [hc, hqc, List.filter_cons]
          omega
        · simp [hc, hqc, List.filter_cons]

/-- The count mapping built by the loader: looking up a non-empty category
name gives the number of questions carrying it, and looking up the empty
string gives `0` even when questions with an empty category exist. -/
theorem countLookup_computeCounts (qs : List Question) (c : String) :
    countLookup (computeCounts qs) c
      = if c = "" then 0 else (qs.filter (fun q => q.category == c)).length := by
  have h := countLookup_computeCounts_aux qs [] c
  simpa [computeCounts, countLookup] using h

/-- Indexing with a default inside the bounds lands in the list. -/
theorem getD_mem (l : List α) (n : Nat) (d : α) (h : n < l.length) :
    l.getD n d ∈ l := by
  induction l generalizing n with
  | nil => simp at h
  | cons a t ih =>
    cases n with
    | zero => simp [List.getD]
    | succ n =>
      have hm := ih n (by simpa using h)
      simp [List.getD] at hm ⊢
      right
      exact hm

/-- Membership after the set-style insertion of `markUsed`. -/
theorem mem_markUsed (s : QuizState) (id a : String) :
    a ∈ (markUsed s id).usedQuestionIds ↔ a = id ∨ a ∈ s.usedQuestionIds := by
  unfold markUsed
  by_cases h : s.usedQuestionIds.contains id = true
  · rw [if_pos h]
    constructor
    · exact fun hm => Or.inr hm
    · rintro (rfl | hm)
      · exact List.elem_iff.mp h
      · exact hm
  · rw [if_neg h]
    simp

theorem mem_uniqueList (seen l : List String) (c : String) :
    c ∈ uniqueList seen l ↔ c ∈ l ∧ c ∉ seen := by
  induction l generalizing seen with
  | nil => simp [uniqueList]
  | cons x xs ih =>
    by_cases hx : x ∈ seen
    · rw [uniqueList, if_pos hx, ih]
      constructor
      · exact fun ⟨h1, h2⟩ => ⟨List.mem_cons_of_mem _ h1, h2⟩
      · rintro ⟨h1, h2⟩
        rcases List.mem_cons.mp h1 with rfl | h1
        · exact absurd hx h2
        · exact ⟨h1, h2⟩
    · rw [uniqueList, if_neg hx]
      constructor
      · intro hm
        rcases List.mem_cons.mp hm with rfl | hm
        · exact ⟨List.mem_cons_self _ _, hx⟩
        · have := (ih (x :: seen)).mp hm
          refine ⟨List.mem_cons_of_mem _ this.1, ?_⟩
          exact fun hc => this.2 (List.mem_cons_of_mem _ hc)
      · rintro ⟨h1, h2⟩
        rcases List.mem_cons.mp h1 with rfl | h1
        · exact List.mem_cons_self _ _
        · by_cases hcx : c = x
          · subst hcx; exact List.mem_cons_self _ _
          · refine List.mem_cons_of_mem _ ((ih (x :: seen)).mpr ⟨h1, ?_⟩)
            intro hc
            rcases List.mem_cons.mp hc with h | h
            · exact hcx h
            · exact h2 h

theorem nodup_uniqueList (seen l : List String) : (uniqueList seen l).Nodup := by
  induction l generalizing seen with
  | nil => simp [uniqueList]
  | cons x xs ih =>
    by_cases hx : x ∈ seen
    · rw [uniqueList, if_pos hx]; exact ih seen
    · rw [uniqueList, if_neg hx]
      refine List.nodup_cons.mpr ⟨?_, ih (x :: seen)⟩
      intro hm
      exact ((mem_uniqueList _ _ _).mp hm).2 (List.mem_cons_self _ _)

/-- The used questions of a pool and the available questions of a pool
partition it. -/
theorem usedCount_add_availLen (s : QuizState) (c : String) :
    ((poolOf s c).filter (fun q => s.usedQuestionIds.contains q.id)).length
      + (availOf s c).length = (poolOf s c).length := by
  exact length_filter_split (poolOf s c) (fun q => s.usedQuestionIds.contains q.id)

/-- The reset loop is the identity on a state that holds no id with the
cleared initial letter. -/
theorem resetCategoryIds_fixed (s : QuizState) (p : Char)
    (hfree : ∀ id ∈ s.usedQuestionIds, startsWithChar id p = false) :
    resetCategoryIds s p = s := by
  unfold resetCategoryIds
  rw [List.filter_eq_self.mpr (fun a ha => by rw [hfree a ha]; rfl)]

/-- A completed run started from a state with no used id carrying the category
initial, for a category with a non-empty pool and a positive count: it must
end in the selection branch, so the output is a formatted available question
and the only id with the category initial in the final state is the one just
served.  The run can also fail to complete (see the non-termination result
below); this lemma is conditional on completion. -/
theorem run_with_cleared_ids (c : String) (hc : c ≠ "") :
    ∀ (fuel r : Nat) (s : QuizState) (out : FormattedQuestion) (sf : QuizState),
    (∀ id ∈ s.usedQuestionIds, startsWithChar id (catInitial c) = false) →
    ¬ ((poolOf s c).length = 0) →
    0 < countLookup s.categoryCounts c →
    getRandomQuestionFuel fuel c r s = some (out, sf) →
    (∃ q, q ∈ availOf s c ∧ out = formatQuestion q ∧ sf = markUsed s q.id) ∧
    (∀ id ∈ sf.usedQuestionIds, startsWithChar id (catInitial c) = true → id = out.id) := by
  intro fuel
  induction fuel with
  | zero =>
    intro r s out sf _ _ _ hrun
    exact absurd hrun (by simp [getRandomQuestionFuel])
  | succ n ih =>
    intro r s out sf hfree hpool hC hrun
    simp only [getRandomQuestionFuel] at hrun
    rw [if_neg hpool] at hrun
    by_cases hexh : 5 * (availOf s c).length < countLookup s.categoryCounts c
    · rw [if_pos hexh, if_neg hc, resetCategoryIds_fixed s (catInitial c) hfree] at hrun
      exact ih r s out sf hfree hpool hC hrun
    · rw [if_neg hexh] at hrun
      have havail : ¬ ((availOf s c).length = 0) := by omega
      rw [if_neg havail] at hrun
      have hinj := Option.some.inj hrun
      have hout : formatQuestion (chosenQuestion s c r) = out := congrArg Prod.fst hinj
      have hsf : markUsed s (chosenQuestion s c r).id = sf := congrArg Prod.snd hinj
      have hm : chosenQuestion s c r ∈ availOf s c :=
        getD_mem _ _ _ (Nat.mod_lt _ (Nat.pos_of_ne_zero havail))
      constructor
      · exact ⟨chosenQuestion s c r, hm, hout.symm, hsf.symm⟩
      · intro id hid hstart
        rw [← hsf] at hid
        rcases (mem_markUsed s _ id).mp hid with h | h
        · rw [h, ← hout]
          rfl
        · exact absurd hstart (by rw [hfree id h]; simp)

/-- Whatever branches a completed run goes through, it never writes the
question list or the count mapping. -/
theorem run_preserves_bank :
    ∀ (fuel : Nat) (c : String) (r : Nat) (s : QuizState)
      (out : FormattedQuestion) (sf : QuizState),
    getRandomQuestionFuel fuel c r s = some (out, sf) →
    sf.questions = s.questions ∧ sf.categoryCounts = s.categoryCounts := by
  intro fuel
  induction fuel with
  | zero =>
    intro c r s out sf h
    exact absurd h (by simp [getRandomQuestionFuel])
  | succ n ih =>
    intro c r s out sf h
    simp only [getRandomQuestionFuel] at h
    by_cases h1 : (poolOf s c).length = 0
    · rw [if_pos h1] at h
      have hs : sf = s := (congrArg Prod.snd (Option.some.inj h)).symm
      rw [hs]
      exact ⟨rfl, rfl⟩
    · rw [if_neg h1] at h
      by_cases h2 : 5 * (availOf s c).length < countLookup s.categoryCounts c
      · rw [if_pos h2] at h
        by_cases h3 : c = ""
        · rw [if_pos h3] at h
          have hs : sf = s := (congrArg Prod.snd (Option.some.inj h)).symm
          rw [hs]
          exact ⟨rfl, rfl⟩
        · rw [if_neg h3] at h
          exact ih c r (resetCategoryIds s (catInitial c)) out sf h
      · rw [if_neg h2] at h
        by_cases h4 : (availOf s c).length = 0
        · rw [if_pos h4] at h
          have hs : sf = s := (congrArg Prod.snd (Option.some.inj h)).symm
          rw [hs]
          exact ⟨rfl, rfl⟩
        · rw [if_neg h4] at h
          have hs : sf = markUsed s (chosenQuestion s c r).id :=
            (congrArg Prod.snd (Option.some.inj h)).symm
          rw [hs]
          exact ⟨rfl, rfl⟩

end BrainBites

namespace BrainBites

/-! The claims. -/

/-- Claim C1: for every category and every reachable usage-tracker state in
which fewer than 0.8 times the category count of the pool questions are marked
used, `getRandomQuestion` returns a question whose id is not in the used-id
set at call time; the selection is drawn from the pool minus the used ids and
no reset path is taken.  The reachable states are exactly those whose count
field is the one the loader computes.  The conclusion holds at every fuel
value of the form `fuel + 1`, and holding already at fuel `1` shows that no
recursive retry (hence no reset) happens; the final state adds only the
returned id. -/
theorem c1 (fuel r : Nat) (c : String) (s : QuizState)
    (hcons : s.categoryCounts = computeCounts s.questions)
    (hused : 5 * ((poolOf s c).filter (fun q => s.usedQuestionIds.contains q.id)).length
        < 4 * countLookup s.categoryCounts c) :
    ∃ q, q ∈ poolOf s c ∧ s.usedQuestionIds.contains q.id = false ∧
      getRandomQuestionFuel (fuel + 1) c r s = some (formatQuestion q, markUsed s q.id) := by
  have hC : 0 < countLookup s.categoryCounts c := by omega
  have hcne : c ≠ "" := by
    intro h
    rw [hcons, countLookup_computeCounts, if_pos h] at hC
    omega
  have hpoolC : (poolOf s c).length = countLookup s.categoryCounts c := by
    rw [hcons, countLookup_computeCounts, if_neg hcne]
    rfl
  have hsplit := usedCount_add_availLen s c
  have hpool0 : ¬ ((poolOf s c).length = 0) := by omega
  have hnoreset : ¬ (5 * (availOf s c).length < countLookup s.categoryCounts c) := by
    omega
  have havail0 : ¬ ((availOf s c).length = 0) := by omega
  refine ⟨chosenQuestion s c r, ?_, ?_, ?_⟩
  · have hm : chosenQuestion s c r ∈ availOf s c := by
      apply getD_mem
      exact Nat.mod_lt _ (Nat.pos_of_ne_zero havail0)
    exact (List.mem_filter.mp hm).1
  · have hm : chosenQuestion s c r ∈ availOf s c := by
      apply getD_mem
      exact Nat.mod_lt _ (Nat.pos_of_ne_zero havail0)
    have := (List.mem_filter.mp hm).2
    simpa using this
  · simp only [getRandomQuestionFuel]
    rw [if_neg hpool0, if_neg hnoreset, if_neg havail0]

/-- Witness for C1 at a concrete reachable state: a fresh two-question
`funfacts` bank with nothing used. -/
theorem c1_witness :
    ∃ q, q ∈ poolOf ex1State "funfacts" ∧ ex1State.usedQuestionIds.contains q.id = false ∧
      getRandomQuestionFuel 1 "funfacts" 0 ex1State
        = some (formatQuestion q, markUsed ex1State q.id) :=
  c1 0 0 "funfacts" ex1State rfl (by decide)

/-- Claim C2 fails on the code: `getRandomQuestion` does not always terminate,
because the reset step matches used ids by the first letter of the category
while nothing forces pool ids to carry that letter.  The first conjunct shows
that the failing state `c2State` is produced by the service itself: one
successful call on the fallback bank marks `A1` used.  The second conjunct
shows the call then diverges: at every fuel the run of
`getRandomQuestion("funfacts")` from `c2State` is still unfinished, because
the reset removes no id (`A1` does not start with F) and every retry repeats
the identical state. -/
theorem c2_bug :
    (getRandomQuestionFuel 1 "funfacts" 0 (setupFallbackQuestions initialState)).map Prod.snd
      = some c2State ∧
    ∀ (fuel r : Nat), getRandomQuestionFuel fuel "funfacts" r c2State = none := by
  constructor
  · rfl
  · intro fuel r
    induction fuel with
    | zero => rfl
    | succ n ih =>
      have hstep : getRandomQuestionFuel (n + 1) "funfacts" r c2State
          = getRandomQuestionFuel n "funfacts" r c2State := rfl
      rw [hstep]
      exact ih

/-- Counterexample to claim C3 as stated: with a two-question `funfacts` bank
(ids `F1`, `F2`, both used) the exhaustion hypothesis holds before the call,
the call completes, and yet the usage tracker after the call does contain an
id whose first character is the uppercased category initial, namely the id of
the question just served. -/
theorem c3_counterexample :
    5 * (availOf ex3State "funfacts").length
        < countLookup ex3State.categoryCounts "funfacts" ∧
    (getRandomQuestionFuel 2 "funfacts" 0 ex3State).map
        (fun p => p.2.usedQuestionIds.any (fun id => startsWithChar id 'F'))
      = some true := by
  constructor
  · decide
  · rfl

/-- Claim C3 as amended: for a reachable state in which the available set is
below 0.2 times the category count, if the call completes then it returns a
question of the pool that is no longer blocked after the reset, and the only
id in the final usage tracker whose first character matches the uppercased
category initial is the id of the question just returned (the reset first
clears every matching id, and the selection then marks the served question
used). -/
theorem c3 (fuel r : Nat) (c : String) (s : QuizState)
    (out : FormattedQuestion) (sf : QuizState)
    (hcons : s.categoryCounts = computeCounts s.questions)
    (hexh : 5 * (availOf s c).length < countLookup s.categoryCounts c)
    (hrun : getRandomQuestionFuel fuel c r s = some (out, sf)) :
    (∃ q, q ∈ poolOf s c ∧ q.id ∉ (resetCategoryIds s (catInitial c)).usedQuestionIds ∧
      out = formatQuestion q) ∧
    (∀ id ∈ sf.usedQuestionIds, startsWithChar id (catInitial c) = true → id = out.id) := by
  have hC : 0 < countLookup s.categoryCounts c := by omega
  have hcne : c ≠ "" := by
    intro h
    rw [hcons, countLookup_computeCounts, if_pos h] at hC
    omega
  have hpoolC : (poolOf s c).length = countLookup s.categoryCounts c := by
    rw [hcons, countLookup_computeCounts, if_neg hcne]
    rfl
  have hpool0 : ¬ ((poolOf s c).length = 0) := by omega
  cases fuel with
  | zero => exact absurd hrun (by simp [getRandomQuestionFuel])
  | succ n =>
    simp only [getRandomQuestionFuel] at hrun
    rw [if_neg hpool0, if_pos hexh, if_neg hcne] at hrun
    have hfree : ∀ id ∈ (resetCategoryIds s (catInitial c)).usedQuestionIds,
        startsWithChar id (catInitial c) = false := by
      intro id hid
      have := (List.mem_filter.mp hid).2
      simpa using this
    have hres := run_with_cleared_ids c hcne n r (resetCategoryIds s (catInitial c)) out sf
      hfree hpool0 hC hrun
    obtain ⟨⟨q, hq, hout, hsfeq⟩, hpref⟩ := hres
    constructor
    · refine ⟨q, (List.mem_filter.mp hq).1, ?_, hout⟩
      intro hmem
      have hb := (List.mem_filter.mp hq).2
      have hc2 : (resetCategoryIds s (catInitial c)).usedQuestionIds.contains q.id = true :=
        List.elem_iff.mpr hmem
      rw [hc2] at hb
      simp at hb
    · exact hpref

/-- Witness for the amended C3 at the concrete exhausted two-question state. -/
theorem c3_witness :
    (∃ q, q ∈ poolOf ex3State "funfacts" ∧
        q.id ∉ (resetCategoryIds ex3State (catInitial "funfacts")).usedQuestionIds ∧
        formatQuestion { defaultQuestion with id := "F1", category := "funfacts", question := "q1" } = formatQuestion q) ∧
    (∀ id ∈ (markUsed (resetCategoryIds ex3State 'F') "F1").usedQuestionIds,
        startsWithChar id (catInitial "funfacts") = true →
        id = (formatQuestion { defaultQuestion with id := "F1", category := "funfacts", question := "q1" }).id) := by
  exact c3 2 0 "funfacts" ex3State _ _ rfl (by decide) rfl

end BrainBites

namespace BrainBites

/-- Counterexample to claim C4 as stated: a source whose single row lacks an
id parses to zero valid rows, and the loaded bank is then NOT the built-in
two-question fallback set; the `complete` callback installs the empty list,
and `setupFallbackQuestions` is not invoked on this path. -/
theorem c4_counterexample :
    (∀ q ∈ [invalidRow], q.id = "" ∨ q.question = "") ∧
    (processQuestions [invalidRow] initialState).questions
      ≠ (setupFallbackQuestions initialState).questions := by
  constructor
  · intro q hq
    rcases List.mem_singleton.mp hq with rfl
    exact Or.inl rfl
  · decide

/-- Claim C4 as amended: if the data source parses but yields zero valid rows
(every row missing an id or a question value), the loaded bank is the empty
list, not the fallback set; `getCategories` on the resulting state returns
the canonical seven names, which do include `funfacts` and `psychology`, and
the loader is a total function that never fails the caller. -/
theorem c4 (rows : List Question) (s : QuizState)
    (h : ∀ q ∈ rows, q.id = "" ∨ q.question = "") :
    (processQuestions rows s).questions = [] ∧
    getCategories (processQuestions rows s) = canonicalCategories ∧
    "funfacts" ∈ getCategories (processQuestions rows s) ∧
    "psychology" ∈ getCategories (processQuestions rows s) := by
  have hempty : rows.filter (fun q => q.id != "" && q.question != "") = [] := by
    refine List.filter_eq_nil_iff.mpr ?_
    intro q hq
    rcases h q hq with h1 | h1 <;> simp [h1]
  have hqs : (processQuestions rows s).questions = [] := hempty
  have hcat : getCategories (processQuestions rows s) = canonicalCategories := by
    unfold getCategories
    rw [hqs]
    rfl
  refine ⟨hqs, hcat, ?_, ?_⟩ <;> rw [hcat] <;> decide

/-- Witness for the amended C4 at the concrete invalid one-row source. -/
theorem c4_witness :
    (processQuestions [invalidRow] initialState).questions = [] ∧
    getCategories (processQuestions [invalidRow] initialState) = canonicalCategories :=
  ⟨(c4 [invalidRow] initialState (fun q hq => by
      rcases List.mem_singleton.mp hq with rfl
      exact Or.inl rfl)).1,
   (c4 [invalidRow] initialState (fun q hq => by
      rcases List.mem_singleton.mp hq with rfl
      exact Or.inl rfl)).2.1⟩

/-- Claim C5: `getFallbackQuestion` is a pure total function returning the
built-in entry for `funfacts` and `psychology` and the default entry for any
other key; consequently a call on a category with zero bank entries returns
that fallback question (never an error and never an unfinished run), leaving
the state unchanged. -/
theorem c5 (c : String) (fuel r : Nat) (s : QuizState) :
    (getFallbackQuestion c
      = if c = "funfacts" then fallbackFunfacts
        else if c = "psychology" then fallbackPsychology
        else fallbackDefault) ∧
    ((poolOf s c).length = 0 →
      getRandomQuestionFuel (fuel + 1) c r s = some (getFallbackQuestion c, s)) := by
  refine ⟨rfl, fun h => ?_⟩
  simp only [getRandomQuestionFuel]
  rw [if_pos h]

/-- Witness for C5: the empty bank has no `history` questions and the call
returns the default fallback immediately. -/
theorem c5_witness :
    getRandomQuestionFuel 1 "history" 0 initialState
      = some (getFallbackQuestion "history", initialState) :=
  (c5 "history" 0 0 initialState).2 rfl

/-- Counterexample to claim C6 as stated: a valid row with an empty category
string is loaded into the bank, so the pool of the category `""` has one
question, but the count mapping has no entry for it and the lookup gives 0. -/
theorem c6_counterexample :
    countLookup ((processQuestions [emptyCatRow] initialState).categoryCounts) "" = 0 ∧
    (poolOf (processQuestions [emptyCatRow] initialState) "").length = 1 := by
  exact ⟨rfl, rfl⟩

/-- Claim C6 as amended: after a load (`processQuestions`) the per-category
count equals the pool size for every NON-EMPTY category string (questions
with an empty category are stored in the bank but skipped by the counting
loop); the same holds after `setupFallbackQuestions`; and no other operation
changes the count mapping: a completed `getRandomQuestion` run and
`resetUsedQuestions` leave it untouched. -/
theorem c6 (rows : List Question) (s : QuizState) (c : String) (hc : c ≠ "") :
    countLookup ((processQuestions rows s).categoryCounts) c
        = (poolOf (processQuestions rows s) c).length ∧
    countLookup ((setupFallbackQuestions s).categoryCounts) c
        = (poolOf (setupFallbackQuestions s) c).length ∧
    (∀ (fuel r : Nat) (s' : QuizState) (out : FormattedQuestion) (sf : QuizState),
      getRandomQuestionFuel fuel c r s' = some (out, sf) →
      sf.categoryCounts = s'.categoryCounts) ∧
    (resetUsedQuestions s).categoryCounts = s.categoryCounts := by
  refine ⟨?_, ?_, ?_, rfl⟩
  · show countLookup (computeCounts (rows.filter fun q => q.id != "" && q.question != "")) c = _
    rw [countLookup_computeCounts, if_neg hc]
    rfl
  · by_cases h1 : c = "funfacts"
    · subst h1; exact rfl
    · by_cases h2 : c = "psychology"
      · subst h2; exact rfl
      · have hf : ¬ ("funfacts" = c) := fun h => h1 h.symm
        have hp : ¬ ("psychology" = c) := fun h => h2 h.symm
        simp [setupFallbackQuestions, poolOf, fallbackQuestionBank, countLookup,
          List.filter_cons, hf, hp, fallbackQ1, fallbackQ2]
  · intro fuel r s' out sf h
    exact (run_preserves_bank fuel c r s' out sf h).2

/-- Witness for the amended C6 at a concrete load and the fallback setup. -/
theorem c6_witness :
    countLookup ((processQuestions [emptyCatRow] initialState).categoryCounts) "funfacts"
        = (poolOf (processQuestions [emptyCatRow] initialState) "funfacts").length ∧
    countLookup ((setupFallbackQuestions initialState).categoryCounts) "funfacts"
        = (poolOf (setupFallbackQuestions initialState) "funfacts").length :=
  ⟨(c6 [emptyCatRow] initialState "funfacts" (by decide)).1,
   (c6 [emptyCatRow] initialState "funfacts" (by decide)).2.1⟩

/-- Claim C7: loading persisted usage state never fails the caller.  A read
error or an absent record leaves the state unchanged (so, from the freshly
constructed state, the used-id set stays empty), and a present record
restores exactly the persisted id list as the in-memory set. -/
theorem c7 (s : QuizState) (ids : List String) :
    loadSavedData s StoreReadResult.readError = s ∧
    loadSavedData s StoreReadResult.absent = s ∧
    (loadSavedData s (StoreReadResult.found ids)).usedQuestionIds = ids ∧
    (loadSavedData initialState StoreReadResult.readError).usedQuestionIds = [] ∧
    (loadSavedData initialState StoreReadResult.absent).usedQuestionIds = [] :=
  ⟨rfl, rfl, rfl, rfl, rfl⟩

/-- Claim C8: `getCategories` returns the distinct category values of the
current bank without duplicates (membership characterised exactly), and
returns the canonical seven-name list when the bank is empty. -/
theorem c8 (s : QuizState) :
    (getCategories s).Nodup ∧
    (s.questions = [] → getCategories s = canonicalCategories) ∧
    (s.questions ≠ [] →
      ∀ c, c ∈ getCategories s ↔ ∃ q, q ∈ s.questions ∧ q.category = c) := by
  refine ⟨?_, ?_, ?_⟩
  · unfold getCategories
    by_cases h : (uniqueList [] (s.questions.map fun q => q.category)).length > 0
    · rw [if_pos h]
      exact nodup_uniqueList _ _
    · rw [if_neg h]
      decide
  · intro h
    unfold getCategories
    rw [h]
    rfl
  · intro h c
    obtain ⟨q0, qs0, hq⟩ := List.exists_cons_of_ne_nil h
    have hlen : (uniqueList [] (s.questions.map fun q => q.category)).length > 0 := by
      rw [hq]
      simp [uniqueList]
    have hcats : getCategories s = uniqueList [] (s.questions.map fun q => q.category) := by
      unfold getCategories
      rw [if_pos hlen]
    rw [hcats, mem_uniqueList]
    simp [List.mem_map]

/-- Witness for C8 on the fallback bank and on the empty bank. -/
theorem c8_witness :
    (getCategories (setupFallbackQuestions initialState)).Nodup ∧
    getCategories initialState = canonicalCategories ∧
    ("psychology" ∈ getCategories (setupFallbackQuestions initialState) ↔
      ∃ q, q ∈ (setupFallbackQuestions initialState).questions ∧ q.category = "psychology") :=
  ⟨(c8 (setupFallbackQuestions initialState)).1,
   (c8 initialState).2.1 rfl,
   (c8 (setupFallbackQuestions initialState)).2.2 (by decide) "psychology"⟩

/-- Claim C9: the bank is never mutated after load.  A completed
`getRandomQuestion` run and `resetUsedQuestions` leave the question list and
the count mapping identical; only the used-id set may change.
`getFallbackQuestion` and `getCategories` are embedded as functions that do
not produce a state at all, mirroring that the source methods assign no
field. -/
theorem c9 (fuel : Nat) (c : String) (r : Nat) (s : QuizState)
    (out : FormattedQuestion) (sf : QuizState) :
    (getRandomQuestionFuel fuel c r s = some (out, sf) →
      sf.questions = s.questions ∧ sf.categoryCounts = s.categoryCounts) ∧
    (resetUsedQuestions s).questions = s.questions ∧
    (resetUsedQuestions s).categoryCounts = s.categoryCounts :=
  ⟨run_preserves_bank fuel c r s out sf, rfl, rfl⟩

/-- Witness for C9: the call that serves `A1` from the fallback bank reaches
`c2State` and preserves the bank fields. -/
theorem c9_witness :
    c2State.questions = (setupFallbackQuestions initialState).questions ∧
    c2State.categoryCounts = (setupFallbackQuestions initialState).categoryCounts :=
  (c9 1 "funfacts" 0 (setupFallbackQuestions initialState)
    (formatQuestion fallbackQ1) c2State).1 rfl

/-- Claim C10: a `getRandomQuestion()` call with no category argument is the
same call as `getRandomQuestion("funfacts")`, by the declared parameter
default; the two are definitionally equal in the embedding for every fuel,
random draw and state. -/
theorem c10 (fuel r : Nat) (s : QuizState) :
    getRandomQuestionDefault fuel r s = getRandomQuestionFuel fuel "funfacts" r s :=
  rfl

end BrainBites
